import Mathlib

/-!
Verification of the FOV-summary QC tool (`fov_summary`): a shallow embedding
of `session_evaluation.py` and `utils.py` in Lean 4, with theorems checking
the natural-language specification against the code.

Conventions of the embedding:
* Python numeric metric values and thresholds are modelled as `Rat`
  (exact ordered arithmetic with decidable comparisons).
* Python exceptions are modelled by `Except`-valued functions; the distinct
  exception classes raised by the evaluator are a small inductive `PyError`.
* A PIL image is modelled by its pixel dimensions (`PILImage`); pixel data
  never influences any layout computation in the source.
* Python `//` (floor division on ints) is `Int.fdiv`; Python `%` and `//`
  on the non-negative loop index are `Nat.mod` / `Nat.div`.
-/

/-! ## Metric evaluator (`session_evaluation.py`, class `Evaluation`) -/

/-- Exception classes raised by the evaluator methods. -/
inductive PyError where
  | valueError (msg : String)
  | typeError (msg : String)
  | nameError (msg : String)
deriving DecidableEq, Repr

/-- A Python `Dict[str, float]` of metrics: keys in insertion order with
their numeric values. -/
abbrev Metrics := List (String × Rat)

/-- The `operation` argument of `evaluate_metrics` / `evaluate_metrics_all`:
a string name, a callable binary predicate, or a value of any other type
(the Python type's name is kept for the `TypeError` message). -/
inductive Operation where
  | opName (s : String)
  | opCallable (f : Rat → Rat → Bool)
  | opOther (typeName : String)

/-- `Evaluation.OPERATORS`: the class-level dispatch table mapping operator
names to binary comparisons from the `operator` module. -/
def OPERATORS : List (String × (Rat → Rat → Bool)) :=
  [ ("==", fun a b => decide (a = b)),
    ("!=", fun a b => decide (a ≠ b)),
    ("<",  fun a b => decide (a < b)),
    ("<=", fun a b => decide (a ≤ b)),
    (">",  fun a b => decide (b < a)),
    (">=", fun a b => decide (b ≤ a)) ]

/-- The error message of `evaluate_metrics` for an unrecognized operator
name (source lines 298-301). -/
def unknownOperationMsg (s : String) : String :=
  "Unknown operation '" ++ s ++ "'. Must be one of " ++
    "['==', '!=', '<', '<=', '>', '>=']"

/-- The error message for an `operation` that is neither a string nor a
callable (source lines 308-311). -/
def badOperationTypeMsg (typeName : String) : String :=
  "Operation must be either a string or a callable, got " ++ typeName

/-- `Evaluation.evaluate_metrics` (source lines 266-313): dispatch the
operator, then reduce with `any` over the dict's values. -/
def evaluate_metrics (metrics : Metrics) (threshold : Rat)
    (operation : Operation) : Except PyError Bool :=
  match operation with
  | .opName s =>
    match OPERATORS.lookup s with
    | none => .error (.valueError (unknownOperationMsg s))
    | some compare_func =>
      .ok (metrics.any fun kv => compare_func kv.2 threshold)
  | .opCallable compare_func =>
      .ok (metrics.any fun kv => compare_func kv.2 threshold)
  | .opOther t => .error (.typeError (badOperationTypeMsg t))

/-- `Evaluation.evaluate_metrics_all` (source lines 315-337). The string
branch of the source reads `operation not in cls.OPERATORS`, but the method
is an instance method whose only bound name is `self`: `cls` is undefined,
so evaluating the membership test raises `NameError("name 'cls' is not
defined")` for EVERY string argument, recognized or not, before any
comparison happens. The callable and fall-through branches are reached
only when `isinstance(operation, str)` is false and behave as written. -/
def evaluate_metrics_all (metrics : Metrics) (threshold : Rat)
    (operation : Operation) : Except PyError Bool :=
  match operation with
  | .opName _ => .error (.nameError "name 'cls' is not defined")
  | .opCallable compare_func =>
      .ok (metrics.all fun kv => compare_func kv.2 threshold)
  | .opOther t => .error (.typeError (badOperationTypeMsg t))

/-! ### Theorems about the evaluator -/

/-- C1: `evaluate_metrics_all` with ANY operator name — in particular every
recognized one — raises `NameError` (undefined `cls`) instead of computing
the universal reduction the spec describes; in particular the empty map does
not return `True`. -/
theorem evaluate_metrics_all_raises_nameError (metrics : Metrics)
    (threshold : Rat) (s : String) :
    evaluate_metrics_all metrics threshold (.opName s)
      = .error (.nameError "name 'cls' is not defined") := rfl

/-- C4: for every recognized operator name, `evaluate_metrics` succeeds and
returns true iff at least one value of the map satisfies the comparison
against the threshold; the empty map yields false, and the spec's example
`evaluate_metrics({"a":5,"b":1}, 3, ">") == True` holds. -/
theorem evaluate_metrics_any_semantics (metrics : Metrics) (threshold : Rat)
    (s : String) (f : Rat → Rat → Bool) (hs : OPERATORS.lookup s = some f) :
    (evaluate_metrics metrics threshold (.opName s) = .ok true ↔
      ∃ kv ∈ metrics, f kv.2 threshold = true) ∧
    evaluate_metrics ([] : Metrics) threshold (.opName s) = .ok false ∧
    evaluate_metrics [("a", 5), ("b", 1)] 3 (.opName ">") = .ok true := by
  refine ⟨?_, ?_, rfl⟩
  · simp only [evaluate_metrics, hs]
    constructor
    · intro h
      have hany : metrics.any (fun kv => f kv.2 threshold) = true := by
        cases hval : metrics.any (fun kv => f kv.2 threshold) with
        | true => rfl
        | false => rw [hval] at h; exact absurd (Except.ok.inj h) Bool.false_ne_true
      exact List.any_eq_true.mp hany
    · intro h
      have hany : metrics.any (fun kv => f kv.2 threshold) = true :=
        List.any_eq_true.mpr h
      rw [hany]
  · simp [evaluate_metrics, hs]

/-- Witness for C4 at the spec's concrete example. -/
theorem evaluate_metrics_any_semantics_witness :
    OPERATORS.lookup ">" = some (fun a b => decide (b < a)) ∧
    ((evaluate_metrics [("a", 5), ("b", 1)] 3 (.opName ">") = .ok true ↔
        ∃ kv ∈ [(("a" : String), (5 : Rat)), ("b", 1)],
          decide (3 < kv.2) = true) ∧
      evaluate_metrics ([] : Metrics) 3 (.opName ">") = .ok false ∧
      evaluate_metrics [("a", 5), ("b", 1)] 3 (.opName ">") = .ok true) :=
  ⟨rfl, evaluate_metrics_any_semantics [("a", 5), ("b", 1)] 3 ">"
      (fun a b => decide (b < a)) rfl⟩

/-- C7: on an unrecognized operator name, `evaluate_metrics` raises the
documented `ValueError` — but `evaluate_metrics_all` raises `NameError`
(undefined `cls`) instead, for every metrics map and threshold; on an
operator that is neither a string nor a callable both raise `TypeError`.
No comparison with any metric value is performed in any of these cases. -/
theorem invalid_operation_behaviour (metrics : Metrics) (threshold : Rat) :
    evaluate_metrics metrics threshold (.opName "~")
      = .error (.valueError (unknownOperationMsg "~")) ∧
    evaluate_metrics_all metrics threshold (.opName "~")
      = .error (.nameError "name 'cls' is not defined") ∧
    evaluate_metrics metrics threshold (.opOther "<class 'int'>")
      = .error (.typeError (badOperationTypeMsg "<class 'int'>")) ∧
    evaluate_metrics_all metrics threshold (.opOther "<class 'int'>")
      = .error (.typeError (badOperationTypeMsg "<class 'int'>")) :=
  ⟨rfl, rfl, rfl, rfl⟩

/-! ## Image composer (`utils.py`, `combine_images`; the identical method
`Evaluation.combine_images` in `session_evaluation.py`) -/

/-- A decoded PIL image: only its pixel dimensions matter for layout. -/
structure PILImage where
  width : Nat
  height : Nat
deriving DecidableEq, Repr

/-- One `new_image.paste(img, (x_center, y_center))` call: the pasted source
image and the top-left corner it is pasted at (Python ints). -/
structure Paste where
  img : PILImage
  x : Int
  y : Int
deriving DecidableEq, Repr

/-- The composite produced by `combine_images`: the canvas created by
`Image.new('RGBA', (total_width, total_height), (255, 255, 255, 0))` plus
the sequence of paste calls performed on it. Label text drawing only
recolors pixels inside the already-sized canvas (via platform font metrics
treated as external by the spec) and is not part of the layout model. -/
structure Composite where
  totalWidth : Nat
  totalHeight : Nat
  background : Nat × Nat × Nat × Nat
  pastes : List Paste
deriving DecidableEq, Repr

/-- Python `max(xs)` over a list of non-negative ints; the source only calls
it on non-empty lists (the empty case errors out earlier). -/
def maxOfList (xs : List Nat) : Nat := xs.foldl Nat.max 0

/-- `math.ceil(a / b)` for non-negative ints and `b > 0`. -/
def ceilDiv (a b : Nat) : Nat := (a + b - 1) / b

/-- Python truthiness of the `row_labels` argument (`None` or a list):
`if row_labels:` is true exactly for a non-empty list. -/
def rowLabelsTruthy : Option (List String) → Bool
  | none => false
  | some l => !l.isEmpty

/-- The body of the paste loop of `combine_images` (utils.py lines 106-119)
for the enumerated image `(idx, img)`: row-major cell placement plus
centering by integer floor division (Python `//` is `Int.fdiv`). -/
def pasteAt (label_offset max_width max_height spacing num_columns : Nat)
    (p : Nat × PILImage) : Paste :=
  let idx := p.1
  let img := p.2
  let row := idx / num_columns
  let col := idx % num_columns
  let x : Int := (label_offset : Int) + (col : Int) * ((max_width : Int) + (spacing : Int))
  let y : Int := (row : Int) * ((max_height : Int) + (spacing : Int))
  let x_center := x + Int.fdiv ((max_width : Int) - (img.width : Int)) 2
  let y_center := y + Int.fdiv ((max_height : Int) - (img.height : Int)) 2
  ⟨img, x_center, y_center⟩

/-- `combine_images` (utils.py lines 42-147), up to and including building
the canvas and the paste sequence. Faithful failure order of the source:
`math.ceil(num_images / num_columns)` raises `ZeroDivisionError` when
`num_columns == 0`; then `widths, heights = zip(*(i.size for i in images))`
raises `ValueError("not enough values to unpack (expected 2, got 0)")` when
`images` is empty — there is no explicit "no images supplied" check. -/
def combine_images (images : List PILImage) (num_columns : Nat)
    (spacing : Nat) (row_labels : Option (List String)) (label_width : Nat) :
    Except String Composite :=
  let num_images := images.length
  if num_columns = 0 then .error "division by zero"
  else
    let num_rows := ceilDiv num_images num_columns
    if images.isEmpty then
      .error "not enough values to unpack (expected 2, got 0)"
    else
      let max_width := maxOfList (images.map (·.width))
      let max_height := maxOfList (images.map (·.height))
      let base_width := max_width * num_columns + spacing * (num_columns - 1)
      let total_width :=
        if rowLabelsTruthy row_labels then base_width + (label_width + spacing)
        else base_width
      let total_height := max_height * num_rows + spacing * (num_rows - 1)
      let label_offset : Nat :=
        if rowLabelsTruthy row_labels then label_width + spacing else 0
      let pastes := images.enum.map
        (pasteAt label_offset max_width max_height spacing num_columns)
      .ok ⟨total_width, total_height, (255, 255, 255, 0), pastes⟩

/-- Outcome of one full `combine_images` call, tracking resource handling:
how many source images the call opened and how many it closed. -/
structure RunResult where
  result : Except String Composite
  opened : Nat
  closed : Nat
deriving Repr

/-- The full control flow of `combine_images` including the final
`new_image.save(...)` and the closing loop (utils.py lines 142-147). The
source has no `try`/`finally`: an exception anywhere — modelled here for
the save step by `save_raises` — propagates immediately, so the
`for img in images: img.close()` loop at the end runs only when the save
succeeded. All `Image.open` calls are assumed to succeed (the images are
given), so every call opens `images.length` handles up front. -/
def combine_images_run (images : List PILImage) (num_columns : Nat)
    (spacing : Nat) (row_labels : Option (List String)) (label_width : Nat)
    (save_raises : Bool) : RunResult :=
  match combine_images images num_columns spacing row_labels label_width with
  | .error e => ⟨.error e, images.length, 0⟩
  | .ok comp =>
    if save_raises then
      ⟨.error "exception raised by save", images.length, 0⟩
    else
      ⟨.ok comp, images.length, images.length⟩

/-! ### Helper lemmas: `maxOfList` and `ceilDiv` -/

theorem foldl_max_le_self (xs : List Nat) (a : Nat) : a ≤ xs.foldl Nat.max a := by
  induction xs generalizing a with
  | nil => exact Nat.le_refl a
  | cons x xs ih =>
    exact Nat.le_trans (Nat.le_max_left a x) (ih (Nat.max a x))

theorem le_foldl_max (xs : List Nat) (a x : Nat) (hx : x ∈ xs) :
    x ≤ xs.foldl Nat.max a := by
  induction xs generalizing a with
  | nil => cases hx
  | cons y ys ih =>
    rcases List.mem_cons.mp hx with h | h
    · subst h
      exact Nat.le_trans (Nat.le_max_right a x) (foldl_max_le_self ys (Nat.max a x))
    · exact ih (Nat.max a y) h

theorem foldl_max_mem_or_init (xs : List Nat) (a : Nat) :
    xs.foldl Nat.max a ∈ xs ∨ xs.foldl Nat.max a = a := by
  induction xs generalizing a with
  | nil => exact Or.inr rfl
  | cons x xs ih =>
    rcases ih (Nat.max a x) with h | h
    · exact Or.inl (List.mem_cons_of_mem x h)
    · have hmax : Nat.max a x = a ∨ Nat.max a x = x := by
        rcases Nat.le_total a x with hle | hle
        · exact Or.inr (Nat.max_eq_right hle)
        · exact Or.inl (Nat.max_eq_left hle)
      rcases hmax with hm | hm
      · exact Or.inr (h.trans hm)
      · exact Or.inl (List.mem_cons.mpr (Or.inl (h.trans hm)))

theorem le_maxOfList (xs : List Nat) (x : Nat) (hx : x ∈ xs) : x ≤ maxOfList xs :=
  le_foldl_max xs 0 x hx

theorem maxOfList_mem (xs : List Nat) (h : xs ≠ []) : maxOfList xs ∈ xs := by
  rcases foldl_max_mem_or_init xs 0 with hm | hm
  · exact hm
  · cases xs with
    | nil => exact absurd rfl h
    | cons x xs =>
      have hm' : maxOfList (x :: xs) = 0 := hm
      have hx : x ≤ maxOfList (x :: xs) := le_maxOfList _ x (List.mem_cons_self x xs)
      have hx0 : x = 0 := Nat.le_antisymm (hm' ▸ hx) (Nat.zero_le x)
      rw [hm']
      exact List.mem_cons.mpr (Or.inl hx0.symm)

theorem le_ceilDiv_mul (a b : Nat) (hb : 0 < b) : a ≤ ceilDiv a b * b := by
  unfold ceilDiv
  have hdm := Nat.div_add_mod (a + b - 1) b
  have hlt : (a + b - 1) % b < b := Nat.mod_lt _ hb
  have hmul : ((a + b - 1) / b) * b = b * ((a + b - 1) / b) := Nat.mul_comm _ _
  set m := b * ((a + b - 1) / b) with hm
  rw [hmul]
  omega

theorem ceilDiv_le (a b k : Nat) (hb : 0 < b) (h : a ≤ k * b) : ceilDiv a b ≤ k := by
  unfold ceilDiv
  rw [← Nat.lt_succ_iff]
  rw [Nat.div_lt_iff_lt_mul hb]
  have hs : Nat.succ k * b = k * b + b := Nat.succ_mul k b
  omega

theorem ceilDiv_pos (a b : Nat) (ha : 0 < a) (hb : 0 < b) : 0 < ceilDiv a b := by
  rcases Nat.eq_zero_or_pos (ceilDiv a b) with h | h
  · have := le_ceilDiv_mul a b hb
    rw [h] at this
    omega
  · exact h

theorem pred_ceilDiv_mul_lt (a b : Nat) (ha : 0 < a) (hb : 0 < b) :
    (ceilDiv a b - 1) * b < a := by
  by_contra hc
  have hle : a ≤ (ceilDiv a b - 1) * b := Nat.le_of_not_lt hc
  have h1 : ceilDiv a b ≤ ceilDiv a b - 1 := ceilDiv_le a b _ hb hle
  have h2 : 0 < ceilDiv a b := ceilDiv_pos a b ha hb
  omega

/-- The successful case of `combine_images` in closed form. -/
theorem combine_images_eq_ok (images : List PILImage) (num_columns spacing : Nat)
    (row_labels : Option (List String)) (label_width : Nat)
    (h1 : num_columns ≠ 0) (h2 : images ≠ []) :
    combine_images images num_columns spacing row_labels label_width = .ok
      ⟨(if rowLabelsTruthy row_labels then
          maxOfList (images.map (·.width)) * num_columns
            + spacing * (num_columns - 1) + (label_width + spacing)
        else
          maxOfList (images.map (·.width)) * num_columns
            + spacing * (num_columns - 1)),
        maxOfList (images.map (·.height)) * ceilDiv images.length num_columns
          + spacing * (ceilDiv images.length num_columns - 1),
        (255, 255, 255, 0),
        images.enum.map
          (pasteAt (if rowLabelsTruthy row_labels then label_width + spacing else 0)
            (maxOfList (images.map (·.width))) (maxOfList (images.map (·.height)))
            spacing num_columns)⟩ := by
  have h2' : images.isEmpty = false := by
    simpa [List.isEmpty_iff] using h2
  simp only [combine_images, h1, if_false, h2', ite_false]
  cases hl : rowLabelsTruthy row_labels <;> simp

/-- Inversion: a successful `combine_images` forces a positive column count
and a non-empty image list. -/
theorem combine_images_ok_inv (images : List PILImage) (num_columns spacing : Nat)
    (row_labels : Option (List String)) (label_width : Nat) (comp : Composite)
    (hc : combine_images images num_columns spacing row_labels label_width = .ok comp) :
    num_columns ≠ 0 ∧ images ≠ [] := by
  constructor
  · intro h0
    rw [combine_images] at hc
    simp [h0] at hc
  · intro h0
    rw [combine_images] at hc
    subst h0
    by_cases hz : num_columns = 0 <;> simp [hz] at hc

/-! ### Theorems about the composer's failure and geometry -/

/-- C2 counterexample: on the empty image list the call does fail before
producing any composite, but with the generic tuple-unpacking `ValueError`
of `widths, heights = zip(*(...))` — its message is NOT the spec's
"no images supplied". -/
theorem combine_images_empty_message_counterexample :
    combine_images [] 2 10 none 200
      = .error "not enough values to unpack (expected 2, got 0)" ∧
    "not enough values to unpack (expected 2, got 0)" ≠ "no images supplied" :=
  ⟨rfl, by decide⟩

/-- C2 amended: for every positive column count and any spacing and label
arguments, `combine_images` on the empty list fails (producing no composite)
with the tuple-unpacking `ValueError`, not with a "no images supplied"
validation error. -/
theorem combine_images_empty_fails (num_columns spacing : Nat)
    (row_labels : Option (List String)) (label_width : Nat)
    (h : 0 < num_columns) :
    combine_images [] num_columns spacing row_labels label_width
      = .error "not enough values to unpack (expected 2, got 0)" := by
  have h' : num_columns ≠ 0 := Nat.pos_iff_ne_zero.mp h
  simp [combine_images, h']

/-- Witness for the amended C2 at concrete arguments. -/
theorem combine_images_empty_fails_witness :
    0 < 2 ∧
    combine_images [] 2 10 (some ["p"]) 200
      = .error "not enough values to unpack (expected 2, got 0)" :=
  ⟨by decide, combine_images_empty_fails 2 10 (some ["p"]) 200 (by decide)⟩

/-- C3: for a non-empty image list and positive column count the canvas is
`gutter + cellWidth*numColumns + spacing*(numColumns-1)` wide and
`cellHeight*numRows + spacing*(numRows-1)` tall, with gutter
`label_width + spacing` exactly when the label list is truthy (non-empty),
background fully transparent white; `cellWidth`/`cellHeight` are attained
maxima of the input dimensions and `numRows` is the exact ceiling of
`imageCount / numColumns`. -/
theorem combine_images_canvas_geometry (images : List PILImage)
    (num_columns spacing : Nat) (row_labels : Option (List String))
    (label_width : Nat) (h1 : images ≠ []) (h2 : num_columns ≠ 0) :
    (combine_images images num_columns spacing row_labels label_width).map
        (fun c => (c.totalWidth, c.totalHeight, c.background))
      = .ok ((if rowLabelsTruthy row_labels then label_width + spacing else 0)
              + maxOfList (images.map (·.width)) * num_columns
              + spacing * (num_columns - 1),
             maxOfList (images.map (·.height)) * ceilDiv images.length num_columns
              + spacing * (ceilDiv images.length num_columns - 1),
             (255, 255, 255, 0)) ∧
    (∀ img ∈ images, img.width ≤ maxOfList (images.map (·.width))) ∧
    maxOfList (images.map (·.width)) ∈ images.map (·.width) ∧
    (∀ img ∈ images, img.height ≤ maxOfList (images.map (·.height))) ∧
    maxOfList (images.map (·.height)) ∈ images.map (·.height) ∧
    images.length ≤ ceilDiv images.length num_columns * num_columns ∧
    (ceilDiv images.length num_columns - 1) * num_columns < images.length := by
  have hmapw : images.map (·.width) ≠ [] := by
    simpa [List.map_eq_nil_iff] using h1
  have hmaph : images.map (·.height) ≠ [] := by
    simpa [List.map_eq_nil_iff] using h1
  have hn : 0 < images.length := List.length_pos.mpr h1
  have hcols : 0 < num_columns := Nat.pos_of_ne_zero h2
  refine ⟨?_, ?_, maxOfList_mem _ hmapw, ?_, maxOfList_mem _ hmaph,
    le_ceilDiv_mul _ _ hcols, pred_ceilDiv_mul_lt _ _ hn hcols⟩
  · rw [combine_images_eq_ok images num_columns spacing row_labels label_width h2 h1]
    simp only [Except.map]
    cases hl : rowLabelsTruthy row_labels <;> simp
    all_goals ring
  · intro img himg
    exact le_maxOfList _ _ (List.mem_map_of_mem (·.width) himg)
  · intro img himg
    exact le_maxOfList _ _ (List.mem_map_of_mem (·.height) himg)

/-- Witness for C3 at the spec's §8 scenario: images 100×50 and 80×80, two
columns, spacing 10, no labels. -/
theorem combine_images_canvas_geometry_witness :
    ([(⟨100, 50⟩ : PILImage), ⟨80, 80⟩] ≠ []) ∧ (2 ≠ 0) ∧
    (combine_images [⟨100, 50⟩, ⟨80, 80⟩] 2 10 none 200).map
        (fun c => (c.totalWidth, c.totalHeight, c.background))
      = .ok (210, 80, (255, 255, 255, 0)) := by
  refine ⟨by decide, by decide, ?_⟩
  have h := combine_images_canvas_geometry [⟨100, 50⟩, ⟨80, 80⟩] 2 10 none 200
    (by decide) (by decide)
  exact h.1

/-! ### Resource handling of a full `combine_images` call -/

/-- C8 counterexample: a run in which the final save raises leaves the one
opened source image unclosed — `opened = 1` but `closed = 0`. -/
theorem combine_images_run_leak_counterexample :
    (combine_images_run [⟨1, 1⟩] 2 10 none 200 true).opened = 1 ∧
    (combine_images_run [⟨1, 1⟩] 2 10 none 200 true).closed = 0 :=
  ⟨rfl, rfl⟩

/-- C8 amended: source images are closed exactly when the whole call
(including the save) succeeds; on any failure — in particular a raising
save — the trailing close loop is skipped and no handle is closed. -/
theorem combine_images_run_close_behaviour (images : List PILImage)
    (num_columns spacing : Nat) (row_labels : Option (List String))
    (label_width : Nat) (save_raises : Bool) :
    (combine_images_run images num_columns spacing row_labels label_width
        save_raises).closed
      = (if (combine_images_run images num_columns spacing row_labels
              label_width save_raises).result.isOk then
          (combine_images_run images num_columns spacing row_labels
              label_width save_raises).opened
        else 0) := by
  unfold combine_images_run
  cases combine_images images num_columns spacing row_labels label_width with
  | error e => simp [Except.isOk, Except.toBool]
  | ok comp =>
    cases save_raises <;> simp [Except.isOk, Except.toBool]

/-! ### Placement and no-crop properties -/

/-- Python `d // 2` for a non-negative int `d` splits `d` into two near-equal
halves: the quotient is non-negative, at most `d`, and `d - 2*(d // 2)` is
0 or 1. -/
theorem fdiv_two_bounds (d : Int) (hd : 0 ≤ d) :
    0 ≤ d.fdiv 2 ∧ 2 * d.fdiv 2 ≤ d ∧ d ≤ 2 * d.fdiv 2 + 1 := by
  rw [Int.fdiv_eq_ediv _ (by norm_num)]
  omega

/-- C5: a successful composition pastes the image at flat index `i` at
`x = gutter + (i mod numColumns)*(cellWidth+spacing) + (cellWidth-w) // 2`,
`y = (i div numColumns)*(cellHeight+spacing) + (cellHeight-h) // 2`
(row-major placement, centered in its cell by integer floor division); the
horizontal and vertical slack each split into two margins differing by at
most one pixel, so a smaller image is centered in its cell. -/
theorem combine_images_paste_position (images : List PILImage)
    (num_columns spacing : Nat) (row_labels : Option (List String))
    (label_width : Nat) (i : Nat) (img : PILImage)
    (h2 : num_columns ≠ 0) (himg : images[i]? = some img) :
    (combine_images images num_columns spacing row_labels label_width).map
        (fun c => c.pastes[i]?)
      = .ok (some
          ⟨img,
            ((if rowLabelsTruthy row_labels then label_width + spacing else 0 : Nat) : Int)
              + ((i % num_columns : Nat) : Int)
                * ((maxOfList (images.map (·.width)) : Int) + (spacing : Int))
              + Int.fdiv ((maxOfList (images.map (·.width)) : Int) - (img.width : Int)) 2,
            ((i / num_columns : Nat) : Int)
                * ((maxOfList (images.map (·.height)) : Int) + (spacing : Int))
              + Int.fdiv ((maxOfList (images.map (·.height)) : Int) - (img.height : Int)) 2⟩) ∧
    0 ≤ Int.fdiv ((maxOfList (images.map (·.width)) : Int) - (img.width : Int)) 2 ∧
    2 * Int.fdiv ((maxOfList (images.map (·.width)) : Int) - (img.width : Int)) 2
      ≤ (maxOfList (images.map (·.width)) : Int) - (img.width : Int) ∧
    (maxOfList (images.map (·.width)) : Int) - (img.width : Int)
      ≤ 2 * Int.fdiv ((maxOfList (images.map (·.width)) : Int) - (img.width : Int)) 2 + 1 ∧
    0 ≤ Int.fdiv ((maxOfList (images.map (·.height)) : Int) - (img.height : Int)) 2 ∧
    2 * Int.fdiv ((maxOfList (images.map (·.height)) : Int) - (img.height : Int)) 2
      ≤ (maxOfList (images.map (·.height)) : Int) - (img.height : Int) ∧
    (maxOfList (images.map (·.height)) : Int) - (img.height : Int)
      ≤ 2 * Int.fdiv ((maxOfList (images.map (·.height)) : Int) - (img.height : Int)) 2 + 1 := by
  have hmem : img ∈ images := List.getElem?_mem himg
  have h1 : images ≠ [] := by
    intro h
    subst h
    simp at himg
  have hw : img.width ≤ maxOfList (images.map (·.width)) :=
    le_maxOfList _ _ (List.mem_map_of_mem (·.width) hmem)
  have hh : img.height ≤ maxOfList (images.map (·.height)) :=
    le_maxOfList _ _ (List.mem_map_of_mem (·.height) hmem)
  have hwi : (0 : Int) ≤ (maxOfList (images.map (·.width)) : Int) - (img.width : Int) := by
    have := hw
    omega
  have hhi : (0 : Int) ≤ (maxOfList (images.map (·.height)) : Int) - (img.height : Int) := by
    have := hh
    omega
  obtain ⟨hw1, hw2, hw3⟩ := fdiv_two_bounds _ hwi
  obtain ⟨hh1, hh2, hh3⟩ := fdiv_two_bounds _ hhi
  refine ⟨?_, hw1, hw2, hw3, hh1, hh2, hh3⟩
  rw [combine_images_eq_ok images num_columns spacing row_labels label_width h2 h1]
  simp only [Except.map, List.getElem?_map, List.getElem?_enum, himg, Option.map_some]
  simp [pasteAt]

/-- Witness for C5 at the spec's §8 scenario, image index 0: the 100×50
image lands at (0, 15) — vertically centered with a 15px top margin. -/
theorem combine_images_paste_position_witness :
    (2 ≠ 0) ∧
    ([(⟨100, 50⟩ : PILImage), ⟨80, 80⟩][0]? = some ⟨100, 50⟩) ∧
    (combine_images [⟨100, 50⟩, ⟨80, 80⟩] 2 10 none 200).map
        (fun c => c.pastes[0]?)
      = .ok (some ⟨⟨100, 50⟩, 0, 15⟩) := by
  refine ⟨by decide, rfl, ?_⟩
  have h := combine_images_paste_position [⟨100, 50⟩, ⟨80, 80⟩] 2 10 none 200
    0 ⟨100, 50⟩ (by decide) rfl
  rw [h.1]
  rfl

/-- C6: a successful composition never crops or rescales: the paste list
carries every input image unchanged and in order, and every paste lands at
non-negative coordinates with the whole image inside the canvas bounds. -/
theorem combine_images_no_crop (images : List PILImage)
    (num_columns spacing : Nat) (row_labels : Option (List String))
    (label_width : Nat) (comp : Composite) (p : Paste)
    (hc : combine_images images num_columns spacing row_labels label_width
      = .ok comp) (hp : p ∈ comp.pastes) :
    comp.pastes.map (·.img) = images ∧
    0 ≤ p.x ∧ 0 ≤ p.y ∧
    p.x + (p.img.width : Int) ≤ (comp.totalWidth : Int) ∧
    p.y + (p.img.height : Int) ≤ (comp.totalHeight : Int) := by
  obtain ⟨h2, h1⟩ := combine_images_ok_inv _ _ _ _ _ _ hc
  rw [combine_images_eq_ok images num_columns spacing row_labels label_width h2 h1] at hc
  have hcomp := Except.ok.inj hc
  subst hcomp
  simp only at hp ⊢
  constructor
  · rw [List.map_map]
    have hfun : ((fun pa => pa.img) ∘
        pasteAt (if rowLabelsTruthy row_labels then label_width + spacing else 0)
          (maxOfList (images.map (·.width))) (maxOfList (images.map (·.height)))
          spacing num_columns) = Prod.snd := by
      funext pr
      rfl
    rw [hfun, List.enum_map_snd]
  · obtain ⟨pr, hpr, hpeq⟩ := List.mem_map.mp hp
    have hidx : images[pr.1]? = some pr.2 := List.mem_enum_iff_getElem?.mp hpr
    have hmem : pr.2 ∈ images := List.getElem?_mem hidx
    have hlt : pr.1 < images.length := by
      rcases List.getElem?_eq_some.mp hidx with ⟨h, _⟩
      exact h
    subst hpeq
    -- abbreviations matching the source locals
    set W := maxOfList (images.map (·.width)) with hWdef
    set H := maxOfList (images.map (·.height)) with hHdef
    set L := (if rowLabelsTruthy row_labels then label_width + spacing else 0) with hLdef
    set n := images.length with hndef
    set rows := ceilDiv n num_columns with hrowsdef
    have hcpos : 0 < num_columns := Nat.pos_of_ne_zero h2
    have hnpos : 0 < n := List.length_pos.mpr h1
    have hrowspos : 0 < rows := ceilDiv_pos n num_columns hnpos hcpos
    have hw : pr.2.width ≤ W :=
      le_maxOfList _ _ (List.mem_map_of_mem (·.width) hmem)
    have hh : pr.2.height ≤ H :=
      le_maxOfList _ _ (List.mem_map_of_mem (·.height) hmem)
    have hwi : (0 : Int) ≤ (W : Int) - (pr.2.width : Int) := by
      have := hw
      omega
    have hhi : (0 : Int) ≤ (H : Int) - (pr.2.height : Int) := by
      have := hh
      omega
    obtain ⟨hfw0, hfw2, _⟩ := fdiv_two_bounds _ hwi
    obtain ⟨hfh0, hfh2, _⟩ := fdiv_two_bounds _ hhi
    have hcol : pr.1 % num_columns < num_columns := Nat.mod_lt _ hcpos
    have hrow : pr.1 / num_columns < rows := by
      rw [Nat.div_lt_iff_lt_mul hcpos]
      exact Nat.lt_of_lt_of_le hlt (le_ceilDiv_mul n num_columns hcpos)
    have hcoli : ((pr.1 % num_columns : Nat) : Int) ≤ (num_columns : Int) - 1 := by
      have := hcol
      omega
    have hrowi : ((pr.1 / num_columns : Nat) : Int) ≤ (rows : Int) - 1 := by
      have := hrow
      omega
    simp only [pasteAt]
    refine ⟨?_, ?_, ?_, ?_⟩
    · have : (0 : Int) ≤ (L : Int) + ((pr.1 % num_columns : Nat) : Int)
          * ((W : Int) + (spacing : Int)) := by positivity
      omega
    · have : (0 : Int) ≤ ((pr.1 / num_columns : Nat) : Int)
          * ((H : Int) + (spacing : Int)) := by positivity
      omega
    · -- x + width ≤ total width
      have htw : (if rowLabelsTruthy row_labels then
            W * num_columns + spacing * (num_columns - 1) + (label_width + spacing)
          else W * num_columns + spacing * (num_columns - 1))
          = W * num_columns + spacing * (num_columns - 1) + L := by
        rw [hLdef]
        cases rowLabelsTruthy row_labels <;> simp
      rw [htw]
      have hmul : ((pr.1 % num_columns : Nat) : Int) * ((W : Int) + (spacing : Int))
          ≤ ((num_columns : Int) - 1) * ((W : Int) + (spacing : Int)) :=
        mul_le_mul_of_nonneg_right hcoli (by positivity)
      have hc1 : 1 ≤ num_columns := hcpos
      calc (L : Int) + ((pr.1 % num_columns : Nat) : Int) * ((W : Int) + (spacing : Int))
            + Int.fdiv ((W : Int) - (pr.2.width : Int)) 2 + (pr.2.width : Int)
          ≤ (L : Int) + ((pr.1 % num_columns : Nat) : Int) * ((W : Int) + (spacing : Int))
            + ((W : Int) - (pr.2.width : Int)) + (pr.2.width : Int) := by
            omega
        _ = (L : Int) + ((pr.1 % num_columns : Nat) : Int) * ((W : Int) + (spacing : Int))
            + (W : Int) := by ring
        _ ≤ (L : Int) + ((num_columns : Int) - 1) * ((W : Int) + (spacing : Int))
            + (W : Int) := by linarith
        _ = (W : Int) * (num_columns : Int)
            + (spacing : Int) * ((num_columns : Int) - 1) + (L : Int) := by ring
        _ = ((W * num_columns + spacing * (num_columns - 1) + L : Nat) : Int) := by
            push_cast [Nat.cast_sub hc1]
            ring
    · -- y + height ≤ total height
      have hmul : ((pr.1 / num_columns : Nat) : Int) * ((H : Int) + (spacing : Int))
          ≤ ((rows : Int) - 1) * ((H : Int) + (spacing : Int)) :=
        mul_le_mul_of_nonneg_right hrowi (by positivity)
      have hr1 : 1 ≤ rows := hrowspos
      calc ((pr.1 / num_columns : Nat) : Int) * ((H : Int) + (spacing : Int))
            + Int.fdiv ((H : Int) - (pr.2.height : Int)) 2 + (pr.2.height : Int)
          ≤ ((pr.1 / num_columns : Nat) : Int) * ((H : Int) + (spacing : Int))
            + ((H : Int) - (pr.2.height : Int)) + (pr.2.height : Int) := by
            omega
        _ = ((pr.1 / num_columns : Nat) : Int) * ((H : Int) + (spacing : Int))
            + (H : Int) := by ring
        _ ≤ ((rows : Int) - 1) * ((H : Int) + (spacing : Int)) + (H : Int) := by linarith
        _ = (H : Int) * (rows : Int) + (spacing : Int) * ((rows : Int) - 1) := by ring
        _ = ((H * rows + spacing * (rows - 1) : Nat) : Int) := by
            push_cast [Nat.cast_sub hr1]
            ring

/-- Witness for C6 at the §8 scenario, checking the first paste. -/
theorem combine_images_no_crop_witness :
    (combine_images [⟨100, 50⟩, ⟨80, 80⟩] 2 10 none 200
      = .ok ⟨210, 80, (255, 255, 255, 0),
          [⟨⟨100, 50⟩, 0, 15⟩, ⟨⟨80, 80⟩, 120, 0⟩]⟩) ∧
    ((⟨⟨100, 50⟩, 0, 15⟩ : Paste) ∈
      [(⟨⟨100, 50⟩, 0, 15⟩ : Paste), ⟨⟨80, 80⟩, 120, 0⟩]) ∧
    ([(⟨⟨100, 50⟩, 0, 15⟩ : Paste), ⟨⟨80, 80⟩, 120, 0⟩].map (·.img)
        = [⟨100, 50⟩, ⟨80, 80⟩] ∧
      (0 : Int) ≤ 0 ∧ (0 : Int) ≤ 15 ∧
      (0 : Int) + ((100 : Nat) : Int) ≤ ((210 : Nat) : Int) ∧
      (15 : Int) + ((50 : Nat) : Int) ≤ ((80 : Nat) : Int)) :=
  ⟨rfl, by decide,
    combine_images_no_crop [⟨100, 50⟩, ⟨80, 80⟩] 2 10 none 200
      ⟨210, 80, (255, 255, 255, 0), [⟨⟨100, 50⟩, 0, 15⟩, ⟨⟨80, 80⟩, 120, 0⟩]⟩
      ⟨⟨100, 50⟩, 0, 15⟩ rfl (by decide)⟩

/-! ## `sort_paths_by_creation_time` (utils.py lines 10-39) -/

/-- One path handed to `sort_paths_by_creation_time`: its printable name
(`str(path)`) and the outcome of `path.stat()` — either an `OSError`
message or the stat result `(st_birthtime if present, st_mtime)`.
Timestamps are modelled as integers. -/
structure PathEntry where
  pathName : String
  stat : Except String (Option Int × Int)
deriving Repr

/-- `get_creation_time` (utils.py lines 25-37): birth time, else
modification time, else the sentinel `0` on an `OSError`. -/
def get_creation_time (p : PathEntry) : Int :=
  match p.stat with
  | .ok (some birthtime, _) => birthtime
  | .ok (none, mtime) => mtime
  | .error _ => 0

/-- Whether `path.stat()` raised `OSError` for this entry. -/
def statFailed (p : PathEntry) : Bool :=
  match p.stat with
  | .error _ => true
  | .ok _ => false

/-- The message `get_creation_time` prints for a failing entry
(`print(f"Error accessing {path}: {e}")`); the `.ok` case is never used
under the `statFailed` filter. -/
def statErrorMessage (p : PathEntry) : String :=
  match p.stat with
  | .error e => "Error accessing " ++ p.pathName ++ ": " ++ e
  | .ok _ => ""

/-- `sort_paths_by_creation_time` (utils.py lines 10-39): Python's stable
`sorted(paths, key=get_creation_time)` (ascending by key), modelled with
`List.mergeSort`. `sorted` evaluates the key once per element in input
order, so the warnings printed to stdout — the observable effect of the
`except OSError` branch — are returned alongside, in input order. -/
def sort_paths_by_creation_time (paths : List PathEntry) :
    List PathEntry × List String :=
  (paths.mergeSort (fun a b => decide (get_creation_time a ≤ get_creation_time b)),
   paths.filterMap (fun p =>
     match p.stat with
     | .error _ => some (statErrorMessage p)
     | .ok _ => none))

/-- A failed stat gets the sentinel creation time `0`. -/
theorem get_creation_time_of_statFailed (p : PathEntry)
    (hp : statFailed p = true) : get_creation_time p = 0 := by
  cases hstat : p.stat with
  | error e => simp [get_creation_time, hstat]
  | ok v => simp [statFailed, hstat] at hp

/-- The warnings collected by `sort_paths_by_creation_time` are exactly one
message per failing entry, in input order. -/
theorem statWarnings_eq (paths : List PathEntry) :
    (paths.filterMap (fun p =>
      match p.stat with
      | .error _ => some (statErrorMessage p)
      | .ok _ => none))
    = (paths.filter statFailed).map statErrorMessage := by
  induction paths with
  | nil => rfl
  | cons p ps ih =>
    cases hstat : p.stat with
    | error e =>
      simp [List.filterMap_cons, List.filter_cons, statFailed, hstat, ih]
    | ok v =>
      simp [List.filterMap_cons, List.filter_cons, statFailed, hstat, ih]

/-- C9: `sort_paths_by_creation_time` never aborts on a failing stat: the
result is a permutation of the input (no path dropped), sorted ascending by
creation time (birth time, else modification time, else the sentinel `0`),
every failing entry precedes every entry with a positive timestamp, every
failing entry carries the sentinel `0`, and one warning message per failing
entry is reported, in input order. -/
theorem sort_paths_by_creation_time_robust (paths : List PathEntry) :
    (sort_paths_by_creation_time paths).1.Perm paths ∧
    List.Pairwise (fun a b => get_creation_time a ≤ get_creation_time b)
      (sort_paths_by_creation_time paths).1 ∧
    List.Pairwise (fun a b =>
        0 < get_creation_time a → statFailed b = true → False)
      (sort_paths_by_creation_time paths).1 ∧
    (∀ p ∈ paths, statFailed p = true → get_creation_time p = 0) ∧
    (sort_paths_by_creation_time paths).2
      = (paths.filter statFailed).map statErrorMessage := by
  simp only [sort_paths_by_creation_time]
  have hsorted : List.Pairwise
      (fun a b => (fun a b =>
        decide (get_creation_time a ≤ get_creation_time b)) a b = true)
      (paths.mergeSort
        (fun a b => decide (get_creation_time a ≤ get_creation_time b))) := by
    refine List.sorted_mergeSort ?_ ?_ paths
    · intro a b c hab hbc
      simp only [decide_eq_true_eq] at *
      exact le_trans hab hbc
    · intro a b
      simp only [Bool.or_eq_true, decide_eq_true_eq]
      exact le_total _ _
  refine ⟨List.mergeSort_perm paths _, ?_, ?_,
    fun p _ => get_creation_time_of_statFailed p, statWarnings_eq paths⟩
  · exact hsorted.imp (fun h => by simpa using h)
  · refine hsorted.imp ?_
    intro a b hab hpos hfail
    have hb0 := get_creation_time_of_statFailed b hfail
    have hab' : get_creation_time a ≤ get_creation_time b := by simpa using hab
    omega

/-! ## `Evaluation.collect_pattern_files` (session_evaluation.py lines
87-120) -/

/-- Character-list test: does `needle` occur at the start of `hay`? -/
def charsStartWith : List Char → List Char → Bool
  | [], _ => true
  | _ :: _, [] => false
  | a :: as, b :: bs => a == b && charsStartWith as bs

/-- Character-list substring test. -/
def charsContain (needle : List Char) : List Char → Bool
  | [] => needle.isEmpty
  | b :: bs => charsStartWith needle (b :: bs) || charsContain needle bs

/-- Python `needle in haystack` on strings. -/
def strContains (needle haystack : String) : Bool :=
  charsContain needle.data haystack.data

/-- One entry of `directory.rglob("*")`: its printable path (`str(i)`) and
whether `i.is_file()` holds. -/
structure DirEntry where
  entryPath : String
  entryIsFile : Bool
deriving DecidableEq, Repr

/-- One directory from `self.directories`: the name of its parent
(`directory.parent.name`) and the entries `directory.rglob("*")` yields. -/
structure PlaneDir where
  parentName : String
  entries : List DirEntry
deriving DecidableEq, Repr

/-- The body of the `for directory in self.directories` loop of
`collect_pattern_files`: extend `matched_files` with the pattern matches of
each pattern (the `if pattern_matches:` guard makes the empty extension
explicit), then append the directory's parent's name to `row_labels` —
unconditionally. Accumulator: `(row_labels, matched_files)`. -/
def collectStep (patterns : List String) (acc : List String × List String)
    (d : PlaneDir) : List String × List String :=
  let files := patterns.foldl (fun fs pattern =>
    let pattern_matches := d.entries.filter
      (fun e => strContains pattern e.entryPath && e.entryIsFile)
    if pattern_matches.isEmpty then fs
    else fs ++ pattern_matches.map (·.entryPath)) acc.2
  (acc.1 ++ [d.parentName], files)

/-- `collect_pattern_files` (session_evaluation.py lines 87-120): validate
the configuration, then scan every directory against every pattern,
returning `(row_labels, matched_files)`. -/
def collect_pattern_files (directories : List PlaneDir)
    (patterns : List String) :
    Except String (List String × List String) :=
  if directories.isEmpty then .error "No directories provided."
  else if patterns.isEmpty then .error "No pattern provided."
  else .ok (directories.foldl (collectStep patterns) ([], []))

/-- The first accumulator component only ever grows by one parent name per
directory. -/
theorem collectStep_foldl_labels (directories : List PlaneDir)
    (patterns : List String) (acc : List String × List String) :
    (directories.foldl (collectStep patterns) acc).1
      = acc.1 ++ directories.map (·.parentName) := by
  induction directories generalizing acc with
  | nil => simp
  | cons d ds ih =>
    rw [List.foldl_cons, ih]
    simp [collectStep]

/-- C10: with a non-empty directory list and non-empty pattern list,
`collect_pattern_files` succeeds and its `row_labels` are exactly the
parents' names of the scanned directories, one per directory whether or not
anything matched — so their number equals the number of directories and is
independent of the matched files. -/
theorem collect_pattern_files_row_labels (directories : List PlaneDir)
    (patterns : List String) (h1 : directories ≠ []) (h2 : patterns ≠ []) :
    (collect_pattern_files directories patterns).map (·.1)
      = .ok (directories.map (·.parentName)) ∧
    (collect_pattern_files directories patterns).map (fun r => r.1.length)
      = .ok directories.length := by
  have h1' : directories.isEmpty = false := by
    simpa [List.isEmpty_iff] using h1
  have h2' : patterns.isEmpty = false := by
    simpa [List.isEmpty_iff] using h2
  simp only [collect_pattern_files, h1', h2', Bool.false_eq_true, if_false,
    Except.map, collectStep_foldl_labels, List.nil_append]
  exact ⟨trivial, by simp⟩

/-- Witness for C10: one directory whose entries match nothing still
contributes its parent's name as the single row label. -/
theorem collect_pattern_files_row_labels_witness :
    ([(⟨"plane0", []⟩ : PlaneDir)] ≠ []) ∧
    (["average_projection.png"] ≠ ([] : List String)) ∧
    ((collect_pattern_files [⟨"plane0", []⟩] ["average_projection.png"]).map (·.1)
        = .ok ["plane0"] ∧
      (collect_pattern_files [⟨"plane0", []⟩]
          ["average_projection.png"]).map (fun r => r.1.length)
        = .ok 1) :=
  ⟨List.cons_ne_nil _ _, List.cons_ne_nil _ _,
    collect_pattern_files_row_labels [⟨"plane0", []⟩]
      ["average_projection.png"] (List.cons_ne_nil _ _) (List.cons_ne_nil _ _)⟩
